import Mathlib

/-!
Shallow embedding of `catmass/src/functions.py` (the catMass repository).

Python floats are modelled as rationals (`ℚ`), exact where the source's
arithmetic is the object of the claims.  The external `xraylib` library
(the spec's "Atomic Data Service") and Python's float formatting are
modelled as an abstract record of functions `AtomicData`: the source never
computes that data itself, so every theorem is stated for an arbitrary
`AtomicData`, with explicit hypotheses standing for the service's
documented guarantees (positive atomic weights, positive cross sections).
-/

namespace CatMass

/-- Result of `xraylib.CompoundParser`: parallel lists of atomic numbers,
mass fractions and atom counts (the dictionary fields `Elements`,
`massFractions`, `nAtoms`, indexed in parallel by the source). -/
structure Compound where
  elements : List ℕ
  massFractions : List ℚ
  nAtoms : List ℚ
deriving Repr, DecidableEq

/-- The external Atomic Data Service (`xraylib`) plus Python's fixed
6-decimal float formatting, as abstract functions.  `fmt6` models the
Python format spec `0.6f` used when building formula strings. -/
structure AtomicData where
  CompoundParser : String → Compound
  AtomicNumberToSymbol : ℕ → String
  SymbolToAtomicNumber : String → ℕ
  EdgeEnergy : ℕ → ℕ → ℚ
  CS_Photo : ℕ → ℚ → ℚ
  AtomicWeight : ℕ → ℚ
  fmt6 : ℚ → String

/-- `np.max` over a list, as the source applies it to a nonempty array
(line 113): fold of `max` seeded with the first entry. -/
def listMax (l : List ℚ) : ℚ := l.foldl max (l.headD 0)

/-- Python `min` over a list, as the source applies it to a nonempty
array (lines 195, 305, 395): fold of `min` seeded with the first entry. -/
def listMin (l : List ℚ) : ℚ := l.foldl min (l.headD 0)

theorem foldl_max_le_init (l : List ℚ) : ∀ a : ℚ, a ≤ l.foldl max a := by
  induction l with
  | nil => intro a; exact le_refl a
  | cons h t ih =>
    intro a
    exact le_trans (le_max_left a h) (ih (max a h))

theorem foldl_max_le_of_mem (l : List ℚ) :
    ∀ (a x : ℚ), x ∈ l → x ≤ l.foldl max a := by
  induction l with
  | nil => intro a x hx; cases hx
  | cons h t ih =>
    intro a x hx
    rcases List.mem_cons.mp hx with h1 | h2
    · subst h1
      exact le_trans (le_max_right a x) (foldl_max_le_init t (max a x))
    · exact ih (max a h) x h2

theorem foldl_max_mem (l : List ℚ) :
    ∀ a : ℚ, l.foldl max a = a ∨ l.foldl max a ∈ l := by
  induction l with
  | nil => intro a; exact Or.inl rfl
  | cons h t ih =>
    intro a
    rcases ih (max a h) with h1 | h2
    · rcases max_choice a h with hm | hm
      · exact Or.inl (h1.trans hm)
      · exact Or.inr (List.mem_cons.mpr (Or.inl (h1.trans hm)))
    · exact Or.inr (List.mem_cons.mpr (Or.inr h2))

theorem le_listMax (l : List ℚ) (x : ℚ) (hx : x ∈ l) : x ≤ listMax l :=
  foldl_max_le_of_mem l (l.headD 0) x hx

theorem listMax_mem (l : List ℚ) (hl : l ≠ []) : listMax l ∈ l := by
  rcases foldl_max_mem l (l.headD 0) with h1 | h2
  · rw [listMax, h1]
    cases l with
    | nil => exact absurd rfl hl
    | cons a t => exact List.mem_cons_self a t
  · exact h2

theorem foldl_min_init_le (l : List ℚ) : ∀ a : ℚ, l.foldl min a ≤ a := by
  induction l with
  | nil => intro a; exact le_refl a
  | cons h t ih =>
    intro a
    exact le_trans (ih (min a h)) (min_le_left a h)

theorem foldl_min_le_of_mem (l : List ℚ) :
    ∀ (a x : ℚ), x ∈ l → l.foldl min a ≤ x := by
  induction l with
  | nil => intro a x hx; cases hx
  | cons h t ih =>
    intro a x hx
    rcases List.mem_cons.mp hx with h1 | h2
    · subst h1
      exact le_trans (foldl_min_init_le t (min a x)) (min_le_right a x)
    · exact ih (min a h) x h2

theorem foldl_min_mem (l : List ℚ) :
    ∀ a : ℚ, l.foldl min a = a ∨ l.foldl min a ∈ l := by
  induction l with
  | nil => intro a; exact Or.inl rfl
  | cons h t ih =>
    intro a
    rcases ih (min a h) with h1 | h2
    · rcases min_choice a h with hm | hm
      · exact Or.inl (h1.trans hm)
      · exact Or.inr (List.mem_cons.mpr (Or.inl (h1.trans hm)))
    · exact Or.inr (List.mem_cons.mpr (Or.inr h2))

theorem listMin_le (l : List ℚ) (x : ℚ) (hx : x ∈ l) : listMin l ≤ x :=
  foldl_min_le_of_mem l (l.headD 0) x hx

theorem listMin_mem (l : List ℚ) (hl : l ≠ []) : listMin l ∈ l := by
  rcases foldl_min_mem l (l.headD 0) with h1 | h2
  · rw [listMin, h1]
    cases l with
    | nil => exact absurd rfl hl
    | cons a t => exact List.mem_cons_self a t
  · exact h2

/-!
### `XASMassCalc` (functions.py lines 21-130)
-/

/-- Lines 66 and 77-84: `E0` starts at the placeholder `0` and is
overwritten only when `Edge` is one of `K`, `L1`, `L2`, `L3`. -/
def xasE0 (ads : AtomicData) (edge_Element Edge : String) : ℚ :=
  if Edge = "K" then ads.EdgeEnergy (ads.SymbolToAtomicNumber edge_Element) 0
  else if Edge = "L1" then ads.EdgeEnergy (ads.SymbolToAtomicNumber edge_Element) 1
  else if Edge = "L2" then ads.EdgeEnergy (ads.SymbolToAtomicNumber edge_Element) 2
  else if Edge = "L3" then ads.EdgeEnergy (ads.SymbolToAtomicNumber edge_Element) 3
  else 0

/-- Lines 92, 94, 119: the pair
`[CS_Photo(Z, E0-0.05), CS_Photo(Z, E0+0.05)]` — the offsets are the
literals `0.05`, not the `delta` argument. -/
def photoPair (ads : AtomicData) (Z : ℕ) (E0 : ℚ) : ℚ × ℚ :=
  (ads.CS_Photo Z (E0 - 0.05), ads.CS_Photo Z (E0 + 0.05))

/-- Lines 21-130.  Returns `(E0, mass, step)` with `E0` in eV and `mass`
in mg after the final `*1000` conversions (lines 127-128).  The row
tables of the source's `np.vstack` loops are Lean lists of rows. -/
def XASMassCalc (ads : AtomicData) (Sample Element Edge : String)
    (Area : ℚ) (AL : ℚ) (delta : ℚ) : ℚ × ℚ × ℚ :=
  let _deltaKeV := delta / 1000
  let Elements := ads.CompoundParser Sample
  let edge_Element :=
    ads.AtomicNumberToSymbol ((ads.CompoundParser Element).elements.headD 0)
  let E0 := xasE0 ads edge_Element Edge
  if Elements.elements.length > 1 then
    let Photo_XS := Elements.elements.map (fun Z => photoPair ads Z E0)
    let mu_tot := (Photo_XS.zip Elements.massFractions).map
      (fun p => (p.1.1 * p.2, p.1.2 * p.2))
    let mu_ave : ℚ × ℚ := ((mu_tot.map Prod.fst).sum, (mu_tot.map Prod.snd).sum)
    let mass := AL * Area / mu_ave.2
    let stepList := (Elements.massFractions.zip Photo_XS).map
      (fun p => p.1 * mass / Area * (p.2.2 - p.2.1))
    let step := listMax stepList
    (E0 * 1000, mass * 1000, step)
  else
    let Photo_XS := photoPair ads (Elements.elements.headD 0) E0
    let mass := AL * Area / Photo_XS.2
    let step := mass / Area * (Photo_XS.2 - Photo_XS.1)
    (E0 * 1000, mass * 1000, step)

/-!
### Shared formula-algebra pieces (the mole loop and the two string-building
loops repeated verbatim in `XASStoichCalc` lines 186-216,
`metalCalculateSample` lines 296-327 and `ComplexCalculateSample`
lines 386-417)
-/

/-- Lines 187-193 (and 297-303, 387-393): moles of each table row,
`massFraction / AtomicWeight(atomicNumber)`. -/
def molsOf (ads : AtomicData) (table : List (ℕ × ℚ)) : List ℚ :=
  table.map (fun r => r.2 / ads.AtomicWeight r.1)

/-- Line 195 (and 305, 395): `mol = mol/min(mol)`. -/
def molNormalize (ads : AtomicData) (table : List (ℕ × ℚ)) : List ℚ :=
  (molsOf ads table).map (fun m => m / listMin (molsOf ads table))

/-- Lines 198-203 (and 309-314, 399-404): concatenate
`AtomicNumberToSymbol(Z)` followed by the 6-decimal rendering of the
normalized mole value, in row order. -/
def buildString (ads : AtomicData) (table : List (ℕ × ℚ)) : String :=
  String.join ((table.zip (molNormalize ads table)).map
    (fun p => ads.AtomicNumberToSymbol p.1.1 ++ ads.fmt6 p.2))

/-- Lines 209-214 (and 320-325, 410-415): condensed string from a
re-parsed compound, symbol followed by the 6-decimal `nAtoms` value. -/
def buildCondensed (ads : AtomicData) (c : Compound) : String :=
  String.join ((c.elements.zip c.nAtoms).map
    (fun p => ads.AtomicNumberToSymbol p.1 ++ ads.fmt6 p.2))

/-!
### `XASStoichCalc` (functions.py lines 133-216)
-/

/-- Lines 172-184: the `Updated_MF` row table of `XASStoichCalc` —
sample1 rows weighted by `DR1/(DR1+DR2)`, then, only when
`Sample2_DR > 0`, sample2 rows weighted by `DR2/(DR1+DR2)`. -/
def dilutedUpdatedMF (ads : AtomicData) (Sample1 Sample2 : String)
    (Sample1_DR Sample2_DR : ℚ) : List (ℕ × ℚ) :=
  let c1 := ads.CompoundParser Sample1
  let c2 := ads.CompoundParser Sample2
  (c1.elements.zip c1.massFractions).map
      (fun r => (r.1, r.2 * Sample1_DR / (Sample1_DR + Sample2_DR))) ++
    (if Sample2_DR > 0 then
      (c2.elements.zip c2.massFractions).map
        (fun r => (r.1, r.2 * Sample2_DR / (Sample1_DR + Sample2_DR)))
    else [])

/-- Lines 133-216: dilution of two samples by a mass ratio.  Builds the
weighted row table, mole-normalizes, formats, re-parses the intermediate
string (line 205) and formats the condensed formula. -/
def XASStoichCalc (ads : AtomicData) (Sample1 Sample2 : String)
    (Sample1_DR Sample2_DR : ℚ) : String :=
  let table := dilutedUpdatedMF ads Sample1 Sample2 Sample1_DR Sample2_DR
  buildCondensed ads (ads.CompoundParser (buildString ads table))

/-!
### `metalCalculateSample` (functions.py lines 220-327)
-/

/-- Lines 258-293: the `Updated_MF` row table of `metalCalculateSample`.
When `Metal_Site2` is the empty string the branch at line 260 never
reads `Metal2_Loading`; the support rows are weighted by
`1 - Metal1_Loading/100`.  Otherwise metal site 2 rows carry
`Metal2_Loading/100` and the support `1 - (Metal1_Loading+Metal2_Loading)/100`. -/
def metalUpdatedMF (ads : AtomicData) (Metal_Site1 : String)
    (Metal1_Loading : ℚ) (Metal_Site2 : String) (Metal2_Loading : ℚ)
    (Support : String) : List (ℕ × ℚ) :=
  let c1 := ads.CompoundParser Metal_Site1
  let cs := ads.CompoundParser Support
  if Metal_Site2 = "" then
    (c1.elements.zip c1.massFractions).map
        (fun r => (r.1, r.2 * Metal1_Loading / 100)) ++
      (cs.elements.zip cs.massFractions).map
        (fun r => (r.1, r.2 * (1 - Metal1_Loading / 100)))
  else
    let c2 := ads.CompoundParser Metal_Site2
    (c1.elements.zip c1.massFractions).map
        (fun r => (r.1, r.2 * Metal1_Loading / 100)) ++
      (c2.elements.zip c2.massFractions).map
        (fun r => (r.1, r.2 * Metal2_Loading / 100)) ++
      (cs.elements.zip cs.massFractions).map
        (fun r => (r.1, r.2 * (1 - (Metal1_Loading + Metal2_Loading) / 100)))

/-- Lines 220-327: two metal sites on a support by weight loading. -/
def metalCalculateSample (ads : AtomicData) (Metal_Site1 : String)
    (Metal1_Loading : ℚ) (Metal_Site2 : String) (Metal2_Loading : ℚ)
    (Support : String) : String :=
  let table := metalUpdatedMF ads Metal_Site1 Metal1_Loading Metal_Site2
    Metal2_Loading Support
  buildCondensed ads (ads.CompoundParser (buildString ads table))

/-!
### `ComplexCalculateSample` (functions.py lines 330-417)
-/

/-- Lines 367-368: index of the metal site in the complex's element list
and the scale factor `wt_Factor = Metal_Loading / massFractions[ind]`. -/
def complexWtFactor (ads : AtomicData) (Complex : String)
    (Metal_Loading : ℚ) (Metal_Site : String) : ℚ :=
  let cc := ads.CompoundParser Complex
  let ind := cc.elements.indexOf (ads.SymbolToAtomicNumber Metal_Site)
  Metal_Loading / cc.massFractions.getD ind 0

/-- Lines 371-376: every complex row's mass fraction scaled by
`wt_Factor/100`. -/
def complexScaledRows (ads : AtomicData) (Complex : String)
    (Metal_Loading : ℚ) (Metal_Site : String) : List (ℕ × ℚ) :=
  let cc := ads.CompoundParser Complex
  (cc.elements.zip cc.massFractions).map
    (fun r => (r.1, r.2 * complexWtFactor ads Complex Metal_Loading Metal_Site / 100))

/-- Lines 378-382: the support's weight fraction,
`1 - complex_MF` where `complex_MF` sums the scaled second column. -/
def complexSupportWF (ads : AtomicData) (Complex : String)
    (Metal_Loading : ℚ) (Metal_Site : String) : ℚ :=
  1 - ((complexScaledRows ads Complex Metal_Loading Metal_Site).map Prod.snd).sum

/-- Lines 364-383: the `Updated_MF` row table of `ComplexCalculateSample`:
scaled complex rows followed by support rows weighted by the support's
weight fraction. -/
def complexUpdatedMF (ads : AtomicData) (Complex : String)
    (Metal_Loading : ℚ) (Metal_Site Support : String) : List (ℕ × ℚ) :=
  let cs := ads.CompoundParser Support
  complexScaledRows ads Complex Metal_Loading Metal_Site ++
    (cs.elements.zip cs.massFractions).map
      (fun r => (r.1, r.2 * complexSupportWF ads Complex Metal_Loading Metal_Site))

/-- Lines 330-417: supported metal complex by weight loading of its metal
site. -/
def ComplexCalculateSample (ads : AtomicData) (Complex : String)
    (Metal_Loading : ℚ) (Metal_Site Support : String) : String :=
  let table := complexUpdatedMF ads Complex Metal_Loading Metal_Site Support
  buildCondensed ads (ads.CompoundParser (buildString ads table))

/-- Follows the spec's words, for comparison with `XASStoichCalc` (claim
about dilution with ratio2 = 0): canonicalizing a single sample alone —
parse it, mole-normalize its own element table, format, re-parse and
format the condensed formula (spec section 4.1, `BuildCanonicalFormula`). -/
def specCanonicalizeAlone (ads : AtomicData) (Sample : String) : String :=
  let c := ads.CompoundParser Sample
  let table := c.elements.zip c.massFractions
  buildCondensed ads (ads.CompoundParser (buildString ads table))

/-!
### A small concrete Atomic Data Service used to evaluate the theorems on
concrete inputs.  The numeric values are a toy table (mass fractions sum
to 1, cross sections positive, the iron cross section jumps at its toy
edge energy 26); nothing downstream depends on them beyond these shapes.
-/

def toyADS : AtomicData where
  CompoundParser := fun s =>
    if s = "Fe" then ⟨[26], [1], [1]⟩
    else if s = "FeO" then ⟨[26, 8], [7/10, 3/10], [1, 1]⟩
    else if s = "Pt" then ⟨[78], [1], [1]⟩
    else if s = "PtO" then ⟨[78, 8], [3/4, 1/4], [1, 1]⟩
    else if s = "Si" then ⟨[14], [1], [1]⟩
    else if s = "SiO2" then ⟨[14, 8], [1/2, 1/2], [1, 2]⟩
    else ⟨[1], [1], [1]⟩
  AtomicNumberToSymbol := fun Z =>
    if Z = 26 then "Fe" else if Z = 8 then "O" else if Z = 78 then "Pt"
    else if Z = 14 then "Si" else "H"
  SymbolToAtomicNumber := fun s =>
    if s = "Fe" then 26 else if s = "O" then 8 else if s = "Pt" then 78
    else if s = "Si" then 14 else 1
  EdgeEnergy := fun Z i => (Z : ℚ) + (i : ℚ) / 10
  CS_Photo := fun Z E => if Z = 26 ∧ 26 ≤ E then 2 else 1
  AtomicWeight := fun Z => (Z : ℚ) + 1
  fmt6 := fun q => toString q.num

theorem toy_weight_pos : ∀ Z : ℕ, 0 < toyADS.AtomicWeight Z := by
  intro Z
  show (0 : ℚ) < (Z : ℚ) + 1
  positivity

theorem toy_cs_pos : ∀ (Z : ℕ) (E : ℚ), 0 < toyADS.CS_Photo Z E := by
  intro Z E
  show (0 : ℚ) < if Z = 26 ∧ 26 ≤ E then 2 else 1
  split <;> norm_num

/-!
### Claim theorems
-/

/-- C3: the source converts `delta` to keV (line 65) but then queries the
cross sections at the hard-coded offsets `±0.05` (lines 92, 94, 119), so
the result of `XASMassCalc` is entirely independent of the `delta`
argument — refuting the claim that the queried offset varies with it. -/
theorem xasMassCalc_ignores_delta (ads : AtomicData)
    (Sample Element Edge : String) (Area AL d1 d2 : ℚ) :
    XASMassCalc ads Sample Element Edge Area AL d1 =
      XASMassCalc ads Sample Element Edge Area AL d2 := rfl

/-- C2: with an edge label outside `K`, `L1`, `L2`, `L3`, `XASMassCalc`
does not fail: `E0` keeps its placeholder value `0` (line 66) and the
function returns a result whose first component is `0`. -/
theorem xasMassCalc_unsupported_edge_E0_zero (ads : AtomicData)
    (Sample Element Edge : String) (Area AL delta : ℚ)
    (hK : Edge ≠ "K") (h1 : Edge ≠ "L1") (h2 : Edge ≠ "L2")
    (h3 : Edge ≠ "L3") :
    (XASMassCalc ads Sample Element Edge Area AL delta).1 = 0 := by
  have hE : xasE0 ads (ads.AtomicNumberToSymbol
      ((ads.CompoundParser Element).elements.headD 0)) Edge = 0 := by
    simp [xasE0, hK, h1, h2, h3]
  unfold XASMassCalc
  dsimp only
  rw [hE]
  split <;> norm_num

theorem xasMassCalc_unsupported_edge_E0_zero_witness :
    (XASMassCalc toyADS "Fe" "Fe" "M5" 1 (5/2) 50).1 = 0 :=
  xasMassCalc_unsupported_edge_E0_zero toyADS "Fe" "Fe" "M5" 1 (5/2) 50
    (by decide) (by decide) (by decide) (by decide)

/-- C10: with an empty `Metal_Site2`, the branch at line 260 never reads
`Metal2_Loading`: the output string is identical for any two values of
that argument, and the table weights the support rows by
`1 - Metal1_Loading/100` alone. -/
theorem metal_empty_site2_independent (ads : AtomicData) (M1 : String)
    (L1 l2a l2b : ℚ) (Sup : String) :
    metalCalculateSample ads M1 L1 "" l2a Sup =
      metalCalculateSample ads M1 L1 "" l2b Sup ∧
    metalUpdatedMF ads M1 L1 "" l2a Sup =
      ((ads.CompoundParser M1).elements.zip
          (ads.CompoundParser M1).massFractions).map
        (fun r => (r.1, r.2 * L1 / 100)) ++
      ((ads.CompoundParser Sup).elements.zip
          (ads.CompoundParser Sup).massFractions).map
        (fun r => (r.1, r.2 * (1 - L1 / 100))) := by
  refine ⟨rfl, ?_⟩
  unfold metalUpdatedMF
  rw [if_pos rfl]

/-- C6: diluting with `Sample2_DR = 0` leaves sample1's rows untouched
(`r/(r+0) = 1`) and contributes no sample2 rows (line 181's guard), so
`XASStoichCalc` returns exactly the canonicalization of sample1 alone. -/
theorem diluted_ratio_zero_canonicalize (ads : AtomicData) (S1 S2 : String)
    (r : ℚ) (hr : 0 < r) :
    XASStoichCalc ads S1 S2 r 0 = specCanonicalizeAlone ads S1 := by
  have htable : dilutedUpdatedMF ads S1 S2 r 0 =
      (ads.CompoundParser S1).elements.zip
        (ads.CompoundParser S1).massFractions := by
    unfold dilutedUpdatedMF
    dsimp only
    rw [if_neg (by norm_num : ¬ ((0:ℚ) > 0)), List.append_nil]
    have hrow : ∀ p ∈ (ads.CompoundParser S1).elements.zip
        (ads.CompoundParser S1).massFractions,
        (p.1, p.2 * r / (r + 0)) = id p := by
      intro p _
      rw [add_zero, mul_div_assoc, div_self (ne_of_gt hr), mul_one, id]
    rw [List.map_congr_left hrow, List.map_id]
  unfold XASStoichCalc specCanonicalizeAlone
  rw [htable]

theorem diluted_ratio_zero_canonicalize_witness :
    XASStoichCalc toyADS "FeO" "Si" 2 0 = specCanonicalizeAlone toyADS "FeO" :=
  diluted_ratio_zero_canonicalize toyADS "FeO" "Si" 2 (by decide)

theorem molNormalize_min_one (ads : AtomicData) (table : List (ℕ × ℚ))
    (hne : table ≠ []) (hpos : ∀ r ∈ table, 0 < r.2)
    (hw : ∀ Z, 0 < ads.AtomicWeight Z) :
    listMin (molNormalize ads table) = 1 ∧
      ∀ v ∈ molNormalize ads table, 1 ≤ v := by
  have hmne : molsOf ads table ≠ [] := by
    unfold molsOf
    simpa using hne
  have hmpos : ∀ m ∈ molsOf ads table, 0 < m := by
    intro m hm
    unfold molsOf at hm
    rcases List.mem_map.mp hm with ⟨r, hr, hrm⟩
    rw [← hrm]
    exact div_pos (hpos r hr) (hw r.1)
  have hminmem : listMin (molsOf ads table) ∈ molsOf ads table :=
    listMin_mem _ hmne
  have hminpos : 0 < listMin (molsOf ads table) := hmpos _ hminmem
  have hge : ∀ v ∈ molNormalize ads table, 1 ≤ v := by
    intro v hv
    unfold molNormalize at hv
    rcases List.mem_map.mp hv with ⟨m, hm, hmv⟩
    rw [← hmv]
    exact (one_le_div hminpos).mpr (listMin_le _ m hm)
  refine ⟨?_, hge⟩
  have hone : (1 : ℚ) ∈ molNormalize ads table := by
    unfold molNormalize
    refine List.mem_map.mpr ⟨listMin (molsOf ads table), hminmem, ?_⟩
    exact div_self (ne_of_gt hminpos)
  have hnne : molNormalize ads table ≠ [] := by
    intro h
    rw [h] at hone
    cases hone
  exact le_antisymm (listMin_le _ 1 hone) (hge _ (listMin_mem _ hnne))

/-- C4: in each of the three formula-building operations — dilution
(`XASStoichCalc`), two-metal loading (`metalCalculateSample`) and complex
loading (`ComplexCalculateSample`) — a nonempty weighted table with
strictly positive mass fractions normalizes (line 195 / 305 / 395) to a
mole table whose minimum is exactly 1 and whose entries are all ≥ 1. -/
theorem normalized_mole_tables_min_one (ads : AtomicData)
    (S1 S2 : String) (r1 r2 : ℚ)
    (M1 : String) (L1 : ℚ) (M2 : String) (L2 : ℚ) (SupA : String)
    (Cx : String) (CL : ℚ) (MS SupB : String)
    (hw : ∀ Z, 0 < ads.AtomicWeight Z)
    (h1ne : dilutedUpdatedMF ads S1 S2 r1 r2 ≠ [])
    (h1pos : ∀ r ∈ dilutedUpdatedMF ads S1 S2 r1 r2, 0 < r.2)
    (h2ne : metalUpdatedMF ads M1 L1 M2 L2 SupA ≠ [])
    (h2pos : ∀ r ∈ metalUpdatedMF ads M1 L1 M2 L2 SupA, 0 < r.2)
    (h3ne : complexUpdatedMF ads Cx CL MS SupB ≠ [])
    (h3pos : ∀ r ∈ complexUpdatedMF ads Cx CL MS SupB, 0 < r.2) :
    (listMin (molNormalize ads (dilutedUpdatedMF ads S1 S2 r1 r2)) = 1 ∧
      ∀ v ∈ molNormalize ads (dilutedUpdatedMF ads S1 S2 r1 r2), 1 ≤ v) ∧
    (listMin (molNormalize ads (metalUpdatedMF ads M1 L1 M2 L2 SupA)) = 1 ∧
      ∀ v ∈ molNormalize ads (metalUpdatedMF ads M1 L1 M2 L2 SupA), 1 ≤ v) ∧
    (listMin (molNormalize ads (complexUpdatedMF ads Cx CL MS SupB)) = 1 ∧
      ∀ v ∈ molNormalize ads (complexUpdatedMF ads Cx CL MS SupB), 1 ≤ v) :=
  ⟨molNormalize_min_one ads _ h1ne h1pos hw,
   molNormalize_min_one ads _ h2ne h2pos hw,
   molNormalize_min_one ads _ h3ne h3pos hw⟩

theorem normalized_mole_tables_min_one_witness :
    (listMin (molNormalize toyADS (dilutedUpdatedMF toyADS "FeO" "Si" 1 1)) = 1 ∧
      ∀ v ∈ molNormalize toyADS (dilutedUpdatedMF toyADS "FeO" "Si" 1 1), 1 ≤ v) ∧
    (listMin (molNormalize toyADS (metalUpdatedMF toyADS "Pt" 10 "" 0 "SiO2")) = 1 ∧
      ∀ v ∈ molNormalize toyADS (metalUpdatedMF toyADS "Pt" 10 "" 0 "SiO2"), 1 ≤ v) ∧
    (listMin (molNormalize toyADS (complexUpdatedMF toyADS "PtO" 30 "Pt" "SiO2")) = 1 ∧
      ∀ v ∈ molNormalize toyADS (complexUpdatedMF toyADS "PtO" 30 "Pt" "SiO2"), 1 ≤ v) :=
  normalized_mole_tables_min_one toyADS "FeO" "Si" 1 1 "Pt" 10 "" 0 "SiO2"
    "PtO" 30 "Pt" "SiO2" toy_weight_pos
    (by simp only [dilutedUpdatedMF, toyADS, String.reduceEq, reduceIte]; norm_num
        exact List.cons_ne_nil _ _)
    (by simp only [dilutedUpdatedMF, toyADS, String.reduceEq, reduceIte]; norm_num)
    (by simp only [metalUpdatedMF, toyADS, String.reduceEq, reduceIte]; norm_num
        exact List.cons_ne_nil _ _)
    (by simp only [metalUpdatedMF, toyADS, String.reduceEq, reduceIte]; norm_num)
    (by simp only [complexUpdatedMF, complexScaledRows, complexSupportWF,
        complexWtFactor, toyADS, String.reduceEq, reduceIte]; norm_num
        exact List.cons_ne_nil _ _)
    (by simp only [complexUpdatedMF, complexScaledRows, complexSupportWF,
        complexWtFactor, toyADS, String.reduceEq, reduceIte]; norm_num)

/-- C5: the source never validates mass fractions.  With a metal loading
of `0`, the two-metal table contains a row with mass fraction `0`, the
minimum of its mole column is `0`, and the normalization at line 305
proceeds to divide by that zero minimum instead of failing with an
`InvalidComposition` error. -/
theorem metal_zero_loading_reaches_div_by_zero :
    (∃ r ∈ metalUpdatedMF toyADS "Pt" 0 "" 0 "SiO2", r.2 = 0) ∧
    listMin (molsOf toyADS (metalUpdatedMF toyADS "Pt" 0 "" 0 "SiO2")) = 0 ∧
    molNormalize toyADS (metalUpdatedMF toyADS "Pt" 0 "" 0 "SiO2") =
      (molsOf toyADS (metalUpdatedMF toyADS "Pt" 0 "" 0 "SiO2")).map
        (fun m => m / 0) := by
  have htab : metalUpdatedMF toyADS "Pt" 0 "" 0 "SiO2" =
      [(78, 0), (14, 1/2), (8, 1/2)] := by
    simp only [metalUpdatedMF, toyADS, String.reduceEq, reduceIte]
    norm_num
  have hmin : listMin (molsOf toyADS (metalUpdatedMF toyADS "Pt" 0 "" 0 "SiO2")) = 0 := by
    rw [htab]
    simp only [molsOf, toyADS, listMin, List.map_cons, List.map_nil,
      List.foldl_cons, List.foldl_nil, List.headD_cons]
    norm_num
  refine ⟨⟨(78, 0), ?_, rfl⟩, hmin, ?_⟩
  · rw [htab]
    exact List.mem_cons_self _ _
  · rw [molNormalize, hmin]

/-- C9: when the absorbing-element argument parses to more than one
element, `XASMassCalc` does not fail: line 74 silently resolves the
absorbing element to the first entry of the parsed element list (here
`Z`, the head), and the returned `E0` is the edge energy looked up for
that element after the symbol round trip. -/
theorem xasMassCalc_multi_element_absorber (ads : AtomicData)
    (Sample Element Edge : String) (Area AL delta : ℚ) (Z : ℕ)
    (rest : List ℕ)
    (hel : (ads.CompoundParser Element).elements = Z :: rest)
    (_hrest : rest ≠ [])
    (hround : ads.SymbolToAtomicNumber (ads.AtomicNumberToSymbol Z) = Z) :
    (XASMassCalc ads Sample Element Edge Area AL delta).1 =
      xasE0 ads (ads.AtomicNumberToSymbol Z) Edge * 1000 ∧
    (Edge = "K" → (XASMassCalc ads Sample Element Edge Area AL delta).1 =
      ads.EdgeEnergy Z 0 * 1000) := by
  have h1 : (XASMassCalc ads Sample Element Edge Area AL delta).1 =
      xasE0 ads (ads.AtomicNumberToSymbol Z) Edge * 1000 := by
    unfold XASMassCalc
    dsimp only
    rw [hel, List.headD_cons]
    split <;> rfl
  refine ⟨h1, fun hEdge => ?_⟩
  rw [h1, hEdge]
  simp [xasE0, hround]

theorem xasMassCalc_multi_element_absorber_witness :
    (XASMassCalc toyADS "Fe" "FeO" "K" 2 (5/2) 50).1 =
      toyADS.EdgeEnergy 26 0 * 1000 :=
  (xasMassCalc_multi_element_absorber toyADS "Fe" "FeO" "K" 2 (5/2) 50 26 [8]
    (by decide) (by decide) (by decide)).2 rfl

/-- C7: in `ComplexCalculateSample`, the scale factor is
`wt_Factor = Metal_Loading / massFractions[ind]` (line 368); after
scaling every complex row by `wt_Factor/100` (line 373/375) the metal
site's scaled mass fraction equals `Metal_Loading/100`; the support's
weight fraction is `1 -` the complex's total scaled mass fraction
(lines 378-382); and a loading equal to the metal site's natural
mass-fraction percentage gives `wt_Factor = 100` and support weight
fraction `0`. -/
theorem complex_wt_factor_scaling (ads : AtomicData) (Cx : String) (L : ℚ)
    (MS : String) (ind : ℕ) (mfInd : ℚ)
    (hind : ind = (ads.CompoundParser Cx).elements.indexOf
      (ads.SymbolToAtomicNumber MS))
    (hmem : ads.SymbolToAtomicNumber MS ∈ (ads.CompoundParser Cx).elements)
    (hmf : mfInd = (ads.CompoundParser Cx).massFractions.getD ind 0)
    (hmfpos : 0 < mfInd)
    (hlen : (ads.CompoundParser Cx).massFractions.length =
      (ads.CompoundParser Cx).elements.length) :
    complexWtFactor ads Cx L MS = L / mfInd ∧
    ((complexScaledRows ads Cx L MS).map Prod.snd).getD ind 0 = L / 100 ∧
    complexSupportWF ads Cx L MS =
      1 - ((complexScaledRows ads Cx L MS).map Prod.snd).sum ∧
    (L = 100 * mfInd → complexWtFactor ads Cx L MS = 100) ∧
    (L = 100 * mfInd → (ads.CompoundParser Cx).massFractions.sum = 1 →
      complexSupportWF ads Cx L MS = 0) := by
  have h0 : mfInd ≠ 0 := ne_of_gt hmfpos
  have hwt : complexWtFactor ads Cx L MS = L / mfInd := by
    rw [complexWtFactor, hmf, hind]
  have hltind : ind < (ads.CompoundParser Cx).elements.length := by
    rw [hind]
    exact List.indexOf_lt_length.mpr hmem
  have hltmf : ind < (ads.CompoundParser Cx).massFractions.length := by
    rw [hlen]
    exact hltind
  have hsnd : (complexScaledRows ads Cx L MS).map Prod.snd =
      ((ads.CompoundParser Cx).elements.zip
        (ads.CompoundParser Cx).massFractions).map
        (fun r => r.2 * complexWtFactor ads Cx L MS / 100) := by
    rw [complexScaledRows, List.map_map]
    rfl
  have hwt100 : L = 100 * mfInd → complexWtFactor ads Cx L MS = 100 := by
    intro hL
    rw [hwt, hL]
    exact mul_div_cancel_right₀ 100 h0
  have hmaplen : ind < (((ads.CompoundParser Cx).elements.zip
      (ads.CompoundParser Cx).massFractions).map
        (fun r => r.2 * complexWtFactor ads Cx L MS / 100)).length := by
    rw [List.length_map, List.length_zip]
    exact lt_min hltind hltmf
  refine ⟨hwt, ?_, rfl, hwt100, ?_⟩
  · rw [hsnd, List.getD_eq_getElem _ _ hmaplen, List.getElem_map,
      List.getElem_zip]
    have hmfe : (ads.CompoundParser Cx).massFractions[ind] = mfInd := by
      rw [hmf, List.getD_eq_getElem _ _ hltmf]
    dsimp only
    rw [hmfe, hwt]
    field_simp
  · intro hL hsum
    have hmap : ((ads.CompoundParser Cx).elements.zip
        (ads.CompoundParser Cx).massFractions).map
        (fun r => r.2 * complexWtFactor ads Cx L MS / 100) =
        ((ads.CompoundParser Cx).elements.zip
          (ads.CompoundParser Cx).massFractions).map Prod.snd := by
      apply List.map_congr_left
      intro p _
      rw [hwt100 hL]
      exact mul_div_cancel_right₀ p.2 (by norm_num)
    rw [complexSupportWF, hsnd, hmap,
      List.map_snd_zip _ _ (le_of_eq hlen), hsum]
    norm_num

theorem complex_wt_factor_scaling_witness :
    complexWtFactor toyADS "PtO" 75 "Pt" = 75 / (3/4) ∧
    ((complexScaledRows toyADS "PtO" 75 "Pt").map Prod.snd).getD 0 0 = 75 / 100 ∧
    complexWtFactor toyADS "PtO" 75 "Pt" = 100 ∧
    complexSupportWF toyADS "PtO" 75 "Pt" = 0 := by
  have h := complex_wt_factor_scaling toyADS "PtO" 75 "Pt" 0 (3/4)
    (by decide) (by decide)
    (by simp [toyADS, String.reduceEq, reduceIte])
    (by norm_num) (by decide)
  exact ⟨h.1, h.2.1, h.2.2.2.1 (by norm_num),
    h.2.2.2.2 (by norm_num) (by simp [toyADS, String.reduceEq, reduceIte]; norm_num)⟩

theorem zip_map_left_map {α β γ δ : Type} (g : α → γ) (f : γ → β → δ) :
    ∀ (l1 : List α) (l2 : List β),
      ((l1.map g).zip l2).map (fun p => f p.1 p.2) =
        (l1.zip l2).map (fun p => f (g p.1) p.2) := by
  intro l1
  induction l1 with
  | nil => intro l2; rfl
  | cons a t ih =>
    intro l2
    cases l2 with
    | nil => rfl
    | cons b t2 =>
      simp only [List.map_cons, List.zip_cons_cons]
      rw [ih t2]

theorem zip_map_right_map {α β γ δ : Type} (g : β → γ) (f : α → γ → δ) :
    ∀ (l1 : List α) (l2 : List β),
      (l1.zip (l2.map g)).map (fun p => f p.1 p.2) =
        (l1.zip l2).map (fun p => f p.1 (g p.2)) := by
  intro l1
  induction l1 with
  | nil => intro l2; rfl
  | cons a t ih =>
    intro l2
    cases l2 with
    | nil => rfl
    | cons b t2 =>
      simp only [List.map_cons, List.zip_cons_cons]
      rw [ih t2]

theorem zip_comm_map {α β γ : Type} (f : α → β → γ) :
    ∀ (l1 : List α) (l2 : List β),
      (l1.zip l2).map (fun p => f p.1 p.2) =
        (l2.zip l1).map (fun p => f p.2 p.1) := by
  intro l1
  induction l1 with
  | nil => intro l2; cases l2 <;> rfl
  | cons a t ih =>
    intro l2
    cases l2 with
    | nil => rfl
    | cons b t2 =>
      simp only [List.zip_cons_cons, List.map_cons]
      rw [ih t2]

theorem xasMassCalc_fst (ads : AtomicData) (Sample Element Edge : String)
    (Area AL delta : ℚ) :
    (XASMassCalc ads Sample Element Edge Area AL delta).1 =
      xasE0 ads (ads.AtomicNumberToSymbol
        ((ads.CompoundParser Element).elements.headD 0)) Edge * 1000 := by
  unfold XASMassCalc
  dsimp only
  split <;> rfl

theorem photo_mu_snd (ads : AtomicData) (E0 : ℚ) :
    ∀ (el : List ℕ) (mf : List ℚ),
      (((el.map (fun Z => photoPair ads Z E0)).zip mf).map
        (fun p => (p.1.1 * p.2, p.1.2 * p.2))).map Prod.snd =
      (el.zip mf).map (fun p => ads.CS_Photo p.1 (E0 + 0.05) * p.2) := by
  intro el
  induction el with
  | nil => intro mf; rfl
  | cons a t ih =>
    intro mf
    cases mf with
    | nil => rfl
    | cons b t2 =>
      simp only [List.map_cons, List.zip_cons_cons]
      rw [ih t2]
      rfl

theorem photo_step_list (ads : AtomicData) (E0 mass Area : ℚ) :
    ∀ (el : List ℕ) (mf : List ℚ),
      (mf.zip (el.map (fun Z => photoPair ads Z E0))).map
        (fun p => p.1 * mass / Area * (p.2.2 - p.2.1)) =
      (el.zip mf).map (fun p => p.2 * mass / Area *
        (ads.CS_Photo p.1 (E0 + 0.05) - ads.CS_Photo p.1 (E0 - 0.05))) := by
  intro el
  induction el with
  | nil => intro mf; cases mf <;> rfl
  | cons a t ih =>
    intro mf
    cases mf with
    | nil => rfl
    | cons b t2 =>
      simp only [List.map_cons, List.zip_cons_cons]
      rw [ih t2]
      rfl

theorem xasMassCalc_eq_multi (ads : AtomicData)
    (Sample Element Edge : String) (Area AL delta E0 muAbove : ℚ)
    (contribs : List ℚ)
    (hE0 : E0 = xasE0 ads (ads.AtomicNumberToSymbol
      ((ads.CompoundParser Element).elements.headD 0)) Edge)
    (hmu : muAbove = (((ads.CompoundParser Sample).elements.zip
        (ads.CompoundParser Sample).massFractions).map
      (fun p => ads.CS_Photo p.1 (E0 + 0.05) * p.2)).sum)
    (hcon : contribs = ((ads.CompoundParser Sample).elements.zip
        (ads.CompoundParser Sample).massFractions).map
      (fun p => p.2 * (AL * Area / muAbove) / Area *
        (ads.CS_Photo p.1 (E0 + 0.05) - ads.CS_Photo p.1 (E0 - 0.05))))
    (h1 : 1 < (ads.CompoundParser Sample).elements.length) :
    XASMassCalc ads Sample Element Edge Area AL delta =
      (E0 * 1000, AL * Area / muAbove * 1000, listMax contribs) := by
  subst hE0
  subst hmu
  subst hcon
  unfold XASMassCalc
  dsimp only
  rw [if_pos h1]
  simp only [photo_mu_snd, photo_step_list]

theorem xasMassCalc_eq_single (ads : AtomicData)
    (Sample Element Edge : String) (Area AL delta E0 : ℚ) (Z : ℕ)
    (hE0 : E0 = xasE0 ads (ads.AtomicNumberToSymbol
      ((ads.CompoundParser Element).elements.headD 0)) Edge)
    (hZ : (ads.CompoundParser Sample).elements = [Z]) :
    XASMassCalc ads Sample Element Edge Area AL delta =
      (E0 * 1000, AL * Area / ads.CS_Photo Z (E0 + 0.05) * 1000,
       AL * Area / ads.CS_Photo Z (E0 + 0.05) / Area *
         (ads.CS_Photo Z (E0 + 0.05) - ads.CS_Photo Z (E0 - 0.05))) := by
  subst hE0
  unfold XASMassCalc
  dsimp only
  rw [hZ]
  rw [if_neg (by norm_num)]
  rfl

/-- C1: for a sample parsing to more than one element (lines 87-113),
`XASMassCalc` mass-weights each element's pair of cross sections (at the
two queried energies) by its mass fraction, sums across elements into the
average cross sections, uses `mass = AL*Area/mu_above` (returned after
the `*1000` unit conversion of line 128) and reports as the edge step the
maximum over all elements of `(massFraction * mass / Area) *
(cs_above - cs_below)`; for a sample parsing to exactly one element
(lines 117-124) it skips the weighting: `mass = AL*Area/cs_above` and
`step = (mass/Area)*(cs_above - cs_below)`. -/
theorem xasMassCalc_mass_and_step (ads : AtomicData)
    (Sample Element Edge : String) (Area AL delta : ℚ) (c : Compound)
    (E0 muAbove : ℚ) (contribs : List ℚ)
    (hc : c = ads.CompoundParser Sample)
    (hE0 : E0 = xasE0 ads (ads.AtomicNumberToSymbol
      ((ads.CompoundParser Element).elements.headD 0)) Edge)
    (hlen : c.massFractions.length = c.elements.length)
    (hmu : muAbove = ((c.elements.zip c.massFractions).map
      (fun p => ads.CS_Photo p.1 (E0 + 0.05) * p.2)).sum)
    (hcon : contribs = (c.elements.zip c.massFractions).map
      (fun p => p.2 * (AL * Area / muAbove) / Area *
        (ads.CS_Photo p.1 (E0 + 0.05) - ads.CS_Photo p.1 (E0 - 0.05)))) :
    (1 < c.elements.length →
      XASMassCalc ads Sample Element Edge Area AL delta =
        (E0 * 1000, AL * Area / muAbove * 1000, listMax contribs) ∧
      (∀ s ∈ contribs, s ≤ listMax contribs) ∧
      listMax contribs ∈ contribs) ∧
    (∀ Z, c.elements = [Z] →
      XASMassCalc ads Sample Element Edge Area AL delta =
        (E0 * 1000, AL * Area / ads.CS_Photo Z (E0 + 0.05) * 1000,
         AL * Area / ads.CS_Photo Z (E0 + 0.05) / Area *
           (ads.CS_Photo Z (E0 + 0.05) - ads.CS_Photo Z (E0 - 0.05)))) := by
  subst hc
  constructor
  · intro h1
    have heq := xasMassCalc_eq_multi ads Sample Element Edge Area AL delta
      E0 muAbove contribs hE0 hmu hcon h1
    have hlencon : contribs.length =
        (ads.CompoundParser Sample).elements.length := by
      rw [hcon, List.length_map, List.length_zip, hlen, min_self]
    have hne : contribs ≠ [] := by
      intro h
      rw [h] at hlencon
      simp only [List.length_nil] at hlencon
      omega
    exact ⟨heq, fun s hs => le_listMax _ s hs, listMax_mem _ hne⟩
  · intro Z hZ
    exact xasMassCalc_eq_single ads Sample Element Edge Area AL delta E0 Z
      hE0 hZ

theorem xasMassCalc_mass_and_step_witness :
    XASMassCalc toyADS "FeO" "Fe" "K" 2 (5/2) 50 =
      (26 * 1000, 5/2 * 2 / (17/10) * 1000, listMax [35/34, 0]) := by
  have h := xasMassCalc_mass_and_step toyADS "FeO" "Fe" "K" 2 (5/2) 50
    (toyADS.CompoundParser "FeO") 26 (17/10) [35/34, 0] rfl
    (by simp [xasE0, toyADS, String.reduceEq, reduceIte])
    (by decide)
    (by simp [toyADS, String.reduceEq, reduceIte]; norm_num)
    (by simp [toyADS, String.reduceEq, reduceIte]; norm_num)
  exact (h.1 (by decide)).1

/-- C8: for positive `Area` and `AL`, with the Atomic Data Service
returning positive cross sections and a rising cross section across the
edge for some element of the sample, `XASMassCalc` returns `mass > 0`
and `step > 0`; and for every supported edge label the returned `E0` is
the service's tabulated edge energy for the resolved element with no
transformation other than the final `*1000` (keV to eV) conversion,
`mass` likewise being scaled by `*1000` (g to mg) at lines 127-128. -/
theorem xasMassCalc_positive_outputs (ads : AtomicData)
    (Sample Element Edge : String) (Area AL delta : ℚ) (c : Compound)
    (E0 : ℚ) (ZEl : ℕ)
    (hc : c = ads.CompoundParser Sample)
    (hE0 : E0 = xasE0 ads (ads.AtomicNumberToSymbol
      ((ads.CompoundParser Element).elements.headD 0)) Edge)
    (hZEl : ZEl = ads.SymbolToAtomicNumber (ads.AtomicNumberToSymbol
      ((ads.CompoundParser Element).elements.headD 0)))
    (hlen : c.massFractions.length = c.elements.length)
    (hne : c.elements ≠ [])
    (hArea : 0 < Area) (hAL : 0 < AL)
    (hcs : ∀ (Z : ℕ) (E : ℚ), 0 < ads.CS_Photo Z E)
    (hmfpos : ∀ m ∈ c.massFractions, 0 < m)
    (hjump : ∃ i : Fin c.elements.length,
      ads.CS_Photo (c.elements.get i) (E0 - 0.05) <
        ads.CS_Photo (c.elements.get i) (E0 + 0.05)) :
    0 < (XASMassCalc ads Sample Element Edge Area AL delta).2.1 ∧
    0 < (XASMassCalc ads Sample Element Edge Area AL delta).2.2 ∧
    (Edge = "K" → (XASMassCalc ads Sample Element Edge Area AL delta).1 =
      ads.EdgeEnergy ZEl 0 * 1000) ∧
    (Edge = "L1" → (XASMassCalc ads Sample Element Edge Area AL delta).1 =
      ads.EdgeEnergy ZEl 1 * 1000) ∧
    (Edge = "L2" → (XASMassCalc ads Sample Element Edge Area AL delta).1 =
      ads.EdgeEnergy ZEl 2 * 1000) ∧
    (Edge = "L3" → (XASMassCalc ads Sample Element Edge Area AL delta).1 =
      ads.EdgeEnergy ZEl 3 * 1000) := by
  subst hc
  have hfst := xasMassCalc_fst ads Sample Element Edge Area AL delta
  have hK : Edge = "K" →
      (XASMassCalc ads Sample Element Edge Area AL delta).1 =
        ads.EdgeEnergy ZEl 0 * 1000 := by
    intro h
    rw [hfst, h, hZEl]
    simp [xasE0]
  have hL1 : Edge = "L1" →
      (XASMassCalc ads Sample Element Edge Area AL delta).1 =
        ads.EdgeEnergy ZEl 1 * 1000 := by
    intro h
    rw [hfst, h, hZEl]
    simp [xasE0, String.reduceEq]
  have hL2 : Edge = "L2" →
      (XASMassCalc ads Sample Element Edge Area AL delta).1 =
        ads.EdgeEnergy ZEl 2 * 1000 := by
    intro h
    rw [hfst, h, hZEl]
    simp [xasE0, String.reduceEq]
  have hL3 : Edge = "L3" →
      (XASMassCalc ads Sample Element Edge Area AL delta).1 =
        ads.EdgeEnergy ZEl 3 * 1000 := by
    intro h
    rw [hfst, h, hZEl]
    simp [xasE0, String.reduceEq]
  have hpos : 0 < (XASMassCalc ads Sample Element Edge Area AL delta).2.1 ∧
      0 < (XASMassCalc ads Sample Element Edge Area AL delta).2.2 := by
    by_cases h1 : 1 < (ads.CompoundParser Sample).elements.length
    · have heq := xasMassCalc_eq_multi ads Sample Element Edge Area AL delta
        E0 (((ads.CompoundParser Sample).elements.zip
            (ads.CompoundParser Sample).massFractions).map
          (fun p => ads.CS_Photo p.1 (E0 + 0.05) * p.2)).sum
        (((ads.CompoundParser Sample).elements.zip
            (ads.CompoundParser Sample).massFractions).map
          (fun p => p.2 * (AL * Area / (((ads.CompoundParser Sample).elements.zip
              (ads.CompoundParser Sample).massFractions).map
            (fun q => ads.CS_Photo q.1 (E0 + 0.05) * q.2)).sum) / Area *
            (ads.CS_Photo p.1 (E0 + 0.05) - ads.CS_Photo p.1 (E0 - 0.05))))
        hE0 rfl rfl h1
      have hmupos : 0 < (((ads.CompoundParser Sample).elements.zip
          (ads.CompoundParser Sample).massFractions).map
          (fun p => ads.CS_Photo p.1 (E0 + 0.05) * p.2)).sum := by
        apply List.sum_pos
        · intro x hx
          rcases List.mem_map.mp hx with ⟨p, hp, hpx⟩
          rw [← hpx]
          exact mul_pos (hcs p.1 (E0 + 0.05))
            (hmfpos p.2 (List.of_mem_zip hp).2)
        · intro hnil
          have hl : (((ads.CompoundParser Sample).elements.zip
              (ads.CompoundParser Sample).massFractions).map
              (fun p => ads.CS_Photo p.1 (E0 + 0.05) * p.2)).length = 0 := by
            rw [hnil]
            rfl
          rw [List.length_map, List.length_zip, hlen, min_self] at hl
          omega
      obtain ⟨i, hi⟩ := hjump
      have hconlen : (((ads.CompoundParser Sample).elements.zip
          (ads.CompoundParser Sample).massFractions).map
          (fun p => p.2 * (AL * Area / (((ads.CompoundParser Sample).elements.zip
              (ads.CompoundParser Sample).massFractions).map
            (fun q => ads.CS_Photo q.1 (E0 + 0.05) * q.2)).sum) / Area *
            (ads.CS_Photo p.1 (E0 + 0.05) -
              ads.CS_Photo p.1 (E0 - 0.05)))).length =
          (ads.CompoundParser Sample).elements.length := by
        rw [List.length_map, List.length_zip, hlen, min_self]
      have hilt : i.1 < (((ads.CompoundParser Sample).elements.zip
          (ads.CompoundParser Sample).massFractions).map
          (fun p => p.2 * (AL * Area / (((ads.CompoundParser Sample).elements.zip
              (ads.CompoundParser Sample).massFractions).map
            (fun q => ads.CS_Photo q.1 (E0 + 0.05) * q.2)).sum) / Area *
            (ads.CS_Photo p.1 (E0 + 0.05) -
              ads.CS_Photo p.1 (E0 - 0.05)))).length := by
        rw [hconlen]
        exact i.2
      have hmflt : i.1 < (ads.CompoundParser Sample).massFractions.length := by
        rw [hlen]
        exact i.2
      have hval : (((ads.CompoundParser Sample).elements.zip
          (ads.CompoundParser Sample).massFractions).map
          (fun p => p.2 * (AL * Area / (((ads.CompoundParser Sample).elements.zip
              (ads.CompoundParser Sample).massFractions).map
            (fun q => ads.CS_Photo q.1 (E0 + 0.05) * q.2)).sum) / Area *
            (ads.CS_Photo p.1 (E0 + 0.05) -
              ads.CS_Photo p.1 (E0 - 0.05)))).get ⟨i.1, hilt⟩ =
          (ads.CompoundParser Sample).massFractions.get ⟨i.1, hmflt⟩ *
            (AL * Area / (((ads.CompoundParser Sample).elements.zip
              (ads.CompoundParser Sample).massFractions).map
            (fun q => ads.CS_Photo q.1 (E0 + 0.05) * q.2)).sum) / Area *
            (ads.CS_Photo ((ads.CompoundParser Sample).elements.get i)
                (E0 + 0.05) -
              ads.CS_Photo ((ads.CompoundParser Sample).elements.get i)
                (E0 - 0.05)) := by
        simp [List.get_eq_getElem, List.getElem_map, List.getElem_zip]
      have hstep_i : 0 < (((ads.CompoundParser Sample).elements.zip
          (ads.CompoundParser Sample).massFractions).map
          (fun p => p.2 * (AL * Area / (((ads.CompoundParser Sample).elements.zip
              (ads.CompoundParser Sample).massFractions).map
            (fun q => ads.CS_Photo q.1 (E0 + 0.05) * q.2)).sum) / Area *
            (ads.CS_Photo p.1 (E0 + 0.05) -
              ads.CS_Photo p.1 (E0 - 0.05)))).get ⟨i.1, hilt⟩ := by
        rw [hval]
        have h2 : 0 < (ads.CompoundParser Sample).massFractions.get
            ⟨i.1, hmflt⟩ :=
          hmfpos _ (List.get_mem _ i.1 hmflt)
        have h3 : 0 < AL * Area / (((ads.CompoundParser Sample).elements.zip
            (ads.CompoundParser Sample).massFractions).map
            (fun q => ads.CS_Photo q.1 (E0 + 0.05) * q.2)).sum :=
          div_pos (mul_pos hAL hArea) hmupos
        exact mul_pos (div_pos (mul_pos h2 h3) hArea) (sub_pos.mpr hi)
      rw [heq]
      refine ⟨mul_pos (div_pos (mul_pos hAL hArea) hmupos) (by norm_num), ?_⟩
      exact lt_of_lt_of_le hstep_i
        (le_listMax _ _ (List.get_mem _ i.1 hilt))
    · have hlone : (ads.CompoundParser Sample).elements.length = 1 := by
        have hp := List.length_pos.mpr hne
        omega
      obtain ⟨Z, hZ⟩ := List.length_eq_one.mp hlone
      have heq := xasMassCalc_eq_single ads Sample Element Edge Area AL delta
        E0 Z hE0 hZ
      obtain ⟨x, hxmem, hxlt⟩ : ∃ x, x ∈ (ads.CompoundParser Sample).elements ∧
          ads.CS_Photo x (E0 - 0.05) < ads.CS_Photo x (E0 + 0.05) := by
        obtain ⟨i, hi⟩ := hjump
        exact ⟨_, List.get_mem _ i.1 i.2, hi⟩
      rw [hZ] at hxmem
      have hxZ : x = Z := by simpa using hxmem
      rw [hxZ] at hxlt
      rw [heq]
      exact ⟨mul_pos (div_pos (mul_pos hAL hArea) (hcs Z (E0 + 0.05)))
          (by norm_num),
        mul_pos (div_pos (div_pos (mul_pos hAL hArea) (hcs Z (E0 + 0.05)))
          hArea) (sub_pos.mpr hxlt)⟩
  exact ⟨hpos.1, hpos.2, hK, hL1, hL2, hL3⟩

theorem xasMassCalc_positive_outputs_witness :
    0 < (XASMassCalc toyADS "FeO" "Fe" "K" 2 (5/2) 50).2.1 ∧
    0 < (XASMassCalc toyADS "FeO" "Fe" "K" 2 (5/2) 50).2.2 ∧
    (XASMassCalc toyADS "FeO" "Fe" "K" 2 (5/2) 50).1 =
      toyADS.EdgeEnergy 26 0 * 1000 := by
  have h := xasMassCalc_positive_outputs toyADS "FeO" "Fe" "K" 2 (5/2) 50
    (toyADS.CompoundParser "FeO") 26 26 rfl
    (by simp [xasE0, toyADS, String.reduceEq, reduceIte])
    (by decide) (by decide) (by decide) (by norm_num) (by norm_num)
    toy_cs_pos
    (by simp [toyADS, String.reduceEq, reduceIte])
    ⟨⟨0, by decide⟩, by simp [toyADS, String.reduceEq, reduceIte]; norm_num⟩
  exact ⟨h.1, h.2.1, h.2.2.1 rfl⟩

end CatMass
